import Mathlib

/-!
Verification of the transaction categorization, keyword learning and
ledger merge logic of src/main.py (Simple Finance App).

Modelling conventions of the shallow embedding:
* a pandas dataframe of transactions is a `List Txn`;
* the Python dict `st.session_state.categories` (insertion ordered) is an
  association list `CatStore`;
* a raw CSV already read into tabular form is a `RawTable` of string cells;
* a thrown exception is `none` / an error component of the result;
* `float` amounts are modelled as `ℚ` (the app only parses decimal
  strings; exponent, infinity and NaN forms are outside the model).
-/

/-- Embeds Python `str.lower` as used on Details values and keywords
(ASCII case folding). -/
def lowerStr (s : String) : String := String.mk (s.toList.map Char.toLower)

/-- Embeds Python `str.strip`: drop leading and trailing whitespace. -/
def trimChars (s : String) : String :=
  String.mk (((s.toList.dropWhile Char.isWhitespace).reverse.dropWhile Char.isWhitespace).reverse)

/-- The normalization applied during matching (src/main.py lines 47 and 49):
lower-case, then strip. -/
def normStr (s : String) : String := trimChars (lowerStr s)

/-- A calendar date, the result of `pd.to_datetime(..., format="%d %b %Y")`. -/
structure CalDate where
  year : Nat
  month : Nat
  day : Nat
deriving DecidableEq, Repr

/-- One transaction row.  `DebitCredit` and `Status` are `Option` valued
because src/main.py never touches those columns while parsing, so a table
missing them still loads (the fields are then absent). -/
structure Txn where
  Date : CalDate
  Details : String
  Amount : ℚ
  DebitCredit : Option String
  Status : Option String
  Category : String
deriving DecidableEq, Repr

/-- The category→keyword-list mapping, in insertion order
(`st.session_state.categories`). -/
abbrev CatStore := List (String × List String)

/-- Dict key access `categories[category]` (first match in insertion order;
keys of a Python dict are unique). -/
def storeLookup : CatStore → String → Option (List String)
  | [], _ => none
  | (c, kws) :: rest, name => if c = name then some kws else storeLookup rest name

/-- Dict value update at an existing key, preserving insertion order. -/
def storeSet : CatStore → String → List String → CatStore
  | [], _, _ => []
  | (c, kws) :: rest, name, v =>
      if c = name then (c, v) :: rest else (c, kws) :: storeSet rest name v

/-- One iteration of the category loop of `categorize_transactions`
(src/main.py lines 43-50): skip "Uncategorized" and empty keyword lists,
otherwise relabel every transaction whose normalized Details is an exact
member of the category's normalized keyword list. -/
def applyCategory (acc : List Txn) (p : String × List String) : List Txn :=
  if p.1 = "Uncategorized" ∨ p.2 = [] then acc
  else
    acc.map (fun t =>
      if normStr t.Details ∈ p.2.map normStr then { t with Category := p.1 } else t)

/-- Embeds `categorize_transactions` (src/main.py lines 40-52): reset every
Category to "Uncategorized", then run the category loop in the store's
listing order. -/
def categorize_transactions (df : List Txn) (store : CatStore) : List Txn :=
  store.foldl applyCategory (df.map (fun t => { t with Category := "Uncategorized" }))

/-- Whether the rule `p` (category name, keyword list) applies to a Details
value `d`: the category is not "Uncategorized", has keywords, and the
normalized Details is an exact member of the normalized keyword list. -/
def ruleMatches (d : String) (p : String × List String) : Bool :=
  decide (p.1 ≠ "Uncategorized" ∧ p.2 ≠ [] ∧ normStr d ∈ p.2.map normStr)

/-- Spec-side description of the categorizer's label: the category evaluated
last in the store's listing order whose keyword set contains the normalized
Details value, skipping "Uncategorized" and empty keyword sets. -/
def lastMatchingCategory (store : CatStore) (d : String) : Option String :=
  (store.reverse.find? (ruleMatches d)).map Prod.fst

/-- Replace a transaction's label by a function of its Details value. -/
def setCat (g : String → String) (t : Txn) : Txn := { t with Category := g t.Details }

/-- How one category-loop iteration updates the label function. -/
def updLabel (p : String × List String) (g : String → String) : String → String :=
  fun d =>
    if p.1 = "Uncategorized" ∨ p.2 = [] then g d
    else if normStr d ∈ p.2.map normStr then p.1 else g d

/-- The label function produced by running the whole category loop. -/
def labelOf : CatStore → (String → String) → String → String
  | [], g => g
  | p :: rest, g => labelOf rest (updLabel p g)

lemma applyCategory_map (df : List Txn) (g : String → String) (p : String × List String) :
    applyCategory (df.map (setCat g)) p = df.map (setCat (updLabel p g)) := by
  by_cases h : p.1 = "Uncategorized" ∨ p.2 = []
  · have hg : setCat (updLabel p g) = setCat g := by
      funext t; simp [setCat, updLabel, h]
    simp [applyCategory, h, hg]
  · simp only [applyCategory, if_neg h, List.map_map]
    have hg : ((fun t : Txn =>
        if normStr t.Details ∈ p.2.map normStr then { t with Category := p.1 } else t)
          ∘ setCat g) = setCat (updLabel p g) := by
      funext t
      by_cases hm : normStr t.Details ∈ p.2.map normStr
      · simp [Function.comp, setCat, updLabel, hm, h]
      · simp [Function.comp, setCat, updLabel, hm, h]
    rw [hg]

lemma foldl_applyCategory (store : CatStore) :
    ∀ (df : List Txn) (g : String → String),
      store.foldl applyCategory (df.map (setCat g)) = df.map (setCat (labelOf store g)) := by
  induction store with
  | nil => intro df g; rfl
  | cons p rest ih =>
      intro df g
      rw [List.foldl_cons, applyCategory_map, ih]
      rfl

lemma find?_append_opt {α : Type} (p : α → Bool) (l₁ l₂ : List α) :
    (l₁ ++ l₂).find? p =
      match l₁.find? p with
      | some x => some x
      | none => l₂.find? p := by
  induction l₁ with
  | nil => simp
  | cons a l ih =>
      by_cases h : p a = true
      · simp [List.find?_cons_of_pos _ h]
      · simp only [List.cons_append, List.find?_cons_of_neg _ h, ih]

lemma labelOf_eq_find (store : CatStore) :
    ∀ (g : String → String) (d : String),
      labelOf store g d = ((store.reverse.find? (ruleMatches d)).map Prod.fst).getD (g d) := by
  induction store with
  | nil => intro g d; rfl
  | cons p rest ih =>
      intro g d
      show labelOf rest (updLabel p g) d = _
      rw [ih]
      have hrev : (p :: rest).reverse = rest.reverse ++ [p] := by simp
      rw [hrev, find?_append_opt]
      cases hf : rest.reverse.find? (ruleMatches d) with
      | some q => rfl
      | none =>
          by_cases h1 : p.1 = "Uncategorized"
          · simp [updLabel, ruleMatches, h1, List.find?]
          · by_cases h2 : p.2 = []
            · simp [updLabel, ruleMatches, h1, h2, List.find?]
            · by_cases h3 : normStr d ∈ p.2.map normStr
              · simp [updLabel, ruleMatches, h1, h2, h3, List.find?]
              · simp [updLabel, ruleMatches, h1, h2, h3, List.find?]

/-- The categorizer, described per transaction: each row keeps all identity
fields and receives the label of the last matching category, defaulting to
"Uncategorized". -/
lemma categorize_eq_map (df : List Txn) (store : CatStore) :
    categorize_transactions df store
      = df.map (fun t =>
          { t with Category := (lastMatchingCategory store t.Details).getD "Uncategorized" }) := by
  have h0 : (fun t : Txn => { t with Category := "Uncategorized" })
      = setCat (fun _ => "Uncategorized") := rfl
  unfold categorize_transactions
  rw [h0, foldl_applyCategory]
  have h1 : setCat (labelOf store (fun _ => "Uncategorized"))
      = fun t : Txn =>
          { t with Category := (lastMatchingCategory store t.Details).getD "Uncategorized" } := by
    funext t
    show { t with Category := labelOf store (fun _ => "Uncategorized") t.Details } = _
    rw [labelOf_eq_find]
    rfl
  rw [h1]

/-- C1: for every transaction set and category store, the categorizer labels
a transaction with a category exactly when the transaction's Details field,
lower-cased and trimmed, is a whole-field member of that category's
lower-cased, trimmed keyword list; "Uncategorized" and categories with empty
keyword lists are skipped; when several categories' keyword sets contain the
normalized Details value, the category evaluated last in the store's listing
order wins; rows matching nothing are labelled "Uncategorized" and no other
field changes. -/
theorem categorizer_exact_match_last_wins (df : List Txn) (store : CatStore) :
    categorize_transactions df store
      = df.map (fun t =>
          { t with Category := (lastMatchingCategory store t.Details).getD "Uncategorized" }) :=
  categorize_eq_map df store

/-- C10: categorization is idempotent and insensitive to pre-existing labels:
relabelling the input arbitrarily does not change the categorizer's output,
and applying the categorizer to an already-categorized set reproduces it,
because every application first resets every row's Category to
"Uncategorized". -/
theorem categorize_idempotent_label_insensitive (df : List Txn) (store : CatStore)
    (f : Txn → String) :
    categorize_transactions (df.map (fun t => { t with Category := f t })) store
        = categorize_transactions df store ∧
    categorize_transactions (categorize_transactions df store) store
        = categorize_transactions df store := by
  have key : ∀ h : Txn → String,
      categorize_transactions (df.map (fun t => { t with Category := h t })) store
        = categorize_transactions df store := by
    intro h
    rw [categorize_eq_map, categorize_eq_map df store, List.map_map]
    have hcomp : ((fun t : Txn =>
        { t with Category := (lastMatchingCategory store t.Details).getD "Uncategorized" })
          ∘ (fun t => { t with Category := h t }))
        = fun t : Txn =>
            { t with Category := (lastMatchingCategory store t.Details).getD "Uncategorized" } := by
      funext t; rfl
    rw [hcomp]
  refine ⟨key f, ?_⟩
  have h2 := key (fun t => (lastMatchingCategory store t.Details).getD "Uncategorized")
  conv_lhs => rw [categorize_eq_map df store]
  exact h2

/-- The dedup identity tuple of src/main.py line 33:
(Date, Details, Amount, Debit/Credit, Status) — Category is not part of it. -/
def txnKey (t : Txn) : CalDate × String × ℚ × Option String × Option String :=
  (t.Date, t.Details, t.Amount, t.DebitCredit, t.Status)

/-- Embeds `drop_duplicates(subset=identity tuple, keep="last")`
(src/main.py lines 32-34): a row is kept exactly when no later row has the
same identity tuple, preserving the order of the kept rows. -/
def dedupKeepLast : List Txn → List Txn
  | [] => []
  | t :: ts =>
      if ts.any (fun u => decide (txnKey u = txnKey t)) then dedupKeepLast ts
      else t :: dedupKeepLast ts

/-- Embeds the merge of src/main.py lines 29-34: concatenate existing then
incoming, and deduplicate by the identity tuple keeping the last occurrence. -/
def mergeLedger (existing incoming : List Txn) : List Txn :=
  dedupKeepLast (existing ++ incoming)

lemma getLast?_cons_ne_nil {α : Type} (a : α) {l : List α} (h : l ≠ []) :
    (a :: l).getLast? = l.getLast? := by
  cases l with
  | nil => exact absurd rfl h
  | cons b m => rw [List.getLast?_cons_cons]

lemma getLast?_append_right {α : Type} (l₁ l₂ : List α) (h : l₂ ≠ []) :
    (l₁ ++ l₂).getLast? = l₂.getLast? := by
  induction l₁ with
  | nil => rfl
  | cons a l ih =>
      rw [List.cons_append, getLast?_cons_ne_nil a ?_, ih]
      intro hc
      exact h (List.append_eq_nil.mp hc).2

lemma getLast?_toList_append {α : Type} (l₁ l₂ : List α) :
    ((l₁.getLast?).toList ++ l₂).getLast? = (l₁ ++ l₂).getLast? := by
  by_cases h : l₂ = []
  · subst h
    rw [List.append_nil, List.append_nil]
    cases hl : l₁.getLast? with
    | none => simp [hl]
    | some a => simp [hl]
  · rw [getLast?_append_right _ _ h, getLast?_append_right _ _ h]

/-- The rows of a deduplicated list holding a given identity key: exactly the
last row of the input with that key, if any. -/
lemma filter_dedupKeepLast (k : CalDate × String × ℚ × Option String × Option String) :
    ∀ l : List Txn,
      (dedupKeepLast l).filter (fun t => decide (txnKey t = k))
        = ((l.filter (fun t => decide (txnKey t = k))).getLast?).toList := by
  intro l
  induction l with
  | nil => rfl
  | cons t ts ih =>
      have hcpos : ∀ l' : List Txn, txnKey t = k →
          (t :: l').filter (fun u => decide (txnKey u = k))
            = t :: l'.filter (fun u => decide (txnKey u = k)) := by
        intro l' hk; simp [List.filter_cons, hk]
      have hcneg : ∀ l' : List Txn, ¬txnKey t = k →
          (t :: l').filter (fun u => decide (txnKey u = k))
            = l'.filter (fun u => decide (txnKey u = k)) := by
        intro l' hk; simp [List.filter_cons, hk]
      by_cases hdup : ts.any (fun u => decide (txnKey u = txnKey t)) = true
      · rw [show dedupKeepLast (t :: ts) = dedupKeepLast ts from by
          simp [dedupKeepLast, hdup]]
        rw [ih]
        by_cases hk : txnKey t = k
        · have hne : ts.filter (fun u => decide (txnKey u = k)) ≠ [] := by
            rcases List.any_eq_true.mp hdup with ⟨u, hu, hq⟩
            have huk : txnKey u = k := by rw [of_decide_eq_true hq, hk]
            intro hnil
            have hall := List.filter_eq_nil_iff.mp hnil u hu
            exact hall (decide_eq_true huk)
          rw [hcpos ts hk, getLast?_cons_ne_nil t hne]
        · rw [hcneg ts hk]
      · rw [show dedupKeepLast (t :: ts) = t :: dedupKeepLast ts from by
          simp [dedupKeepLast, hdup]]
        by_cases hk : txnKey t = k
        · have hnone : ts.filter (fun u => decide (txnKey u = k)) = [] := by
            apply List.filter_eq_nil_iff.mpr
            intro u hu hq
            apply hdup
            apply List.any_eq_true.mpr
            exact ⟨u, hu, decide_eq_true (by rw [of_decide_eq_true hq, hk])⟩
          rw [hcpos (dedupKeepLast ts) hk, hcpos ts hk, ih, hnone]
          rfl
        · rw [hcneg (dedupKeepLast ts) hk, hcneg ts hk, ih]

/-- C2: merging batch B1 into the empty ledger and then batch B2 yields a
ledger that, for every identity key (Date, Details, Amount, Debit/Credit,
Status), holds exactly one row when the key occurs in B1 ++ B2 and none
otherwise, and that row is the last occurrence of the key in merge order —
so a re-import of the same identity tuple with a different Category keeps
the later record, Category included. -/
theorem merge_dedup_keeps_last (B1 B2 : List Txn)
    (k : CalDate × String × ℚ × Option String × Option String) :
    (mergeLedger (mergeLedger [] B1) B2).filter (fun t => decide (txnKey t = k))
      = (((B1 ++ B2).filter (fun t => decide (txnKey t = k))).getLast?).toList := by
  show (dedupKeepLast (dedupKeepLast ([] ++ B1) ++ B2)).filter _ = _
  rw [List.nil_append, filter_dedupKeepLast, List.filter_append, filter_dedupKeepLast,
    getLast?_toList_append, ← List.filter_append]

/-- Raw tabular input, as produced by `pd.read_csv`: a header row and string
cells.  Cells are plain strings (NaN cells of pandas are outside the model). -/
structure RawTable where
  headers : List String
  rows : List (List String)
deriving DecidableEq, Repr

/-- Split a character list at every occurrence of `sep` (consecutive
separators produce empty tokens, like Python `str.split(sep)`). -/
def splitAtSep (sep : Char) : List Char → List Char → List (List Char)
  | [], acc => [acc.reverse]
  | c :: cs, acc =>
      if c = sep then acc.reverse :: splitAtSep sep cs []
      else splitAtSep sep cs (c :: acc)

/-- The numeric value of a digit string (no validation). -/
def digitsVal (cs : List Char) : Nat :=
  cs.foldl (fun n c => 10 * n + (c.toNat - 48)) 0

/-- Month number of a `%b` abbreviation, case-insensitively. -/
def monthOfAbbrev (s : String) : Option Nat :=
  (["jan", "feb", "mar", "apr", "may", "jun",
    "jul", "aug", "sep", "oct", "nov", "dec"].findIdx?
      (fun m => m == lowerStr s)).map (fun i => i + 1)

def isLeapYear (y : Nat) : Bool :=
  y % 4 == 0 && (y % 100 != 0 || y % 400 == 0)

def daysInMonth (y m : Nat) : Nat :=
  if m = 2 then (if isLeapYear y then 29 else 28)
  else if m = 4 ∨ m = 6 ∨ m = 9 ∨ m = 11 then 30 else 31

/-- Embeds `pd.to_datetime(date, format="%d %b %Y")` on one cell: a 1-2 digit
day, a month abbreviation and a 4 digit year separated by single spaces, with
the day validated against the month's length; anything else fails. -/
def parseDate (s : String) : Option CalDate :=
  match splitAtSep ' ' s.toList [] with
  | [dTok, mTok, yTok] =>
      if dTok ≠ [] ∧ dTok.length ≤ 2 ∧ dTok.all Char.isDigit ∧
          yTok.length = 4 ∧ yTok.all Char.isDigit then
        match monthOfAbbrev (String.mk mTok) with
        | some m =>
            if 1 ≤ digitsVal dTok ∧ digitsVal dTok ≤ daysInMonth (digitsVal yTok) m then
              some ⟨digitsVal yTok, m, digitsVal dTok⟩
            else none
        | none => none
      else none
  | _ => none

/-- Embeds Python `float(...)` on a decimal string: optional surrounding
whitespace and sign, digits with at most one decimal point and at least one
digit (exponent, infinity and NaN forms are outside the model). -/
def parseFloatStr (s : String) : Option ℚ :=
  let cs0 := (trimChars s).toList
  let signed : Bool × List Char :=
    match cs0 with
    | '-' :: rest => (true, rest)
    | '+' :: rest => (false, rest)
    | rest => (false, rest)
  let val : Option ℚ :=
    match splitAtSep '.' signed.2 [] with
    | [ip] =>
        if ip ≠ [] ∧ ip.all Char.isDigit then some ((digitsVal ip : Nat) : ℚ) else none
    | [ip, fp] =>
        if (ip ≠ [] ∨ fp ≠ []) ∧ ip.all Char.isDigit ∧ fp.all Char.isDigit then
          some (((digitsVal ip : Nat) : ℚ) + ((digitsVal fp : Nat) : ℚ) / ((10 : ℚ) ^ fp.length))
        else none
    | _ => none
  val.map (fun q => if signed.1 then -q else q)

/-- Embeds `df["Amount"].str.replace(",", "").astype(float)` on one cell
(src/main.py line 59): remove every comma, then convert. -/
def parseAmount (s : String) : Option ℚ :=
  parseFloatStr (String.mk (s.toList.filter (fun c => c ≠ ',')))

/-- Column index of a named column after the header trim of
src/main.py line 58. -/
def colId (raw : RawTable) (name : String) : Option Nat :=
  (raw.headers.map trimChars).findIdx? (fun h => h == name)

/-- Build one transaction from a row.  Date and Amount cells are required
and converted; the Details cell is taken when its column exists (`dei` is
the column index, `none` when the column is absent); the Debit/Credit and
Status columns are carried over verbatim when present and left absent
otherwise, since `load_transactions` never touches them.  When the Details
column is absent the field is recorded as the empty string: the value is a
placeholder for a column the dataframe simply does not have, and
`load_transactions` only produces such rows when no category-loop iteration
would read Details (see `storeHasActiveRule`). -/
def parseRow (di : Nat) (dei : Option Nat) (ai : Nat) (dci si : Option Nat)
    (r : List String) : Option Txn :=
  match r[di]?, r[ai]? with
  | some ds, some amtS =>
      match parseAmount amtS, parseDate ds with
      | some amount, some date =>
          match dei with
          | some i =>
              match r[i]? with
              | some des =>
                  some { Date := date, Details := des, Amount := amount,
                         DebitCredit := dci.bind (fun j => r[j]?),
                         Status := si.bind (fun j => r[j]?),
                         Category := "Uncategorized" }
              | none => none
          | none =>
              some { Date := date, Details := "", Amount := amount,
                     DebitCredit := dci.bind (fun j => r[j]?),
                     Status := si.bind (fun j => r[j]?),
                     Category := "Uncategorized" }
      | _, _ => none
  | _, _ => none

/-- All-or-nothing conversion of the rows: any failing row rejects the
whole input (the exception raised inside the `try` of src/main.py
lines 56-62). -/
def parseRows (di : Nat) (dei : Option Nat) (ai : Nat) (dci si : Option Nat) :
    List (List String) → Option (List Txn)
  | [] => some []
  | r :: rs =>
      match parseRow di dei ai dci si r, parseRows di dei ai dci si rs with
      | some t, some ts => some (t :: ts)
      | _, _ => none

/-- Whether the category loop of `categorize_transactions` executes its body
at least once, i.e. some category other than "Uncategorized" has a non-empty
keyword list.  Only then does src/main.py line 49 access `df["Details"]` —
with the initial store the loop always skips and the column is never read. -/
def storeHasActiveRule (store : CatStore) : Bool :=
  store.any (fun p => decide (p.1 ≠ "Uncategorized" ∧ p.2 ≠ []))

/-- Embeds `load_transactions` (src/main.py lines 55-65): trim headers,
convert Amount and Date, categorize, and collapse any exception to `none`.
A missing Date or Amount column raises a KeyError inside the `try`, hence
`none`; the Details column is accessed only by line 49 inside the category
loop, so its absence raises only when some non-"Uncategorized" category has
keywords — otherwise the table loads without it; the Debit/Credit and
Status columns are never accessed here. -/
def load_transactions (raw : RawTable) (store : CatStore) : Option (List Txn) :=
  match colId raw "Date", colId raw "Amount" with
  | some di, some ai =>
      if colId raw "Details" = none ∧ storeHasActiveRule store = true then none
      else
        match parseRows di (colId raw "Details") ai
            (colId raw "Debit/Credit") (colId raw "Status") raw.rows with
        | some txns => some (categorize_transactions txns store)
        | none => none
  | _, _ => none

/-- The mutable session and durable state touched by `save_csv`:
`dataframe` is `st.session_state.dataframe` (`none` = Python `None`) and
`persisted` is the content of uploaded_files/bank_statements.parquet
(`none` = file absent). -/
structure AppState where
  dataframe : Option (List Txn)
  persisted : Option (List Txn)
deriving DecidableEq, Repr

/-- The state change of `save_csv` once `load_transactions` has succeeded
(src/main.py lines 28-37): merge into the session dataframe only when one
is present, then write the *incoming* batch to the parquet file. -/
def save_csv_core (s : AppState) (incoming : List Txn) : AppState :=
  { dataframe :=
      match s.dataframe with
      | some df => some (mergeLedger df incoming)
      | none => none,
    persisted := some incoming }

/-- Embeds a full `save_csv` call (src/main.py lines 21-37).  On a
successful load the state update of `save_csv_core` runs with `true`.  When
loading fails, `incoming_df` is `None`: with a session dataframe present,
`pd.concat` at line 29 silently drops the `None` entry (documented pandas
behavior), so line 35 still reassigns the session dataframe to the
deduplication of the existing frame alone, before `None.to_parquet` raises
AttributeError at line 37 — no incoming row enters the ledger and the
parquet is untouched, but the frame is re-deduplicated in place.  With no
session dataframe the merge branch is skipped and the same line-37
exception leaves the state unchanged.  `false` marks the escaped
exception. -/
def save_csv_step (s : AppState) (raw : RawTable) (store : CatStore) : AppState × Bool :=
  match load_transactions raw store with
  | none =>
      match s.dataframe with
      | some df => (AppState.mk (some (dedupKeepLast df)) s.persisted, false)
      | none => (s, false)
  | some incoming => (save_csv_core s incoming, true)

/-- Embeds the startup reload of src/main.py lines 184-185, run on every
Streamlit rerun: when the parquet file exists, the session dataframe is
overwritten with its content. -/
def reload_state (s : AppState) : AppState :=
  { s with dataframe :=
      match s.persisted with
      | some l => some l
      | none => s.dataframe }

/-- Embeds `add_keyword_to_category` (src/main.py lines 68-75).  The keyword
is stripped; an empty result short-circuits to `False` before the dict
access.  A non-empty keyword with a missing category raises KeyError on
`st.session_state.categories[category]`, modelled as `none`.  Otherwise a
keyword already present (case-sensitively, as stored) yields `False`, and a
new keyword is appended and the store persisted, yielding `True`. -/
def add_keyword_to_category (store : CatStore) (category keyword : String) :
    Option (CatStore × Bool) :=
  if trimChars keyword = "" then some (store, false)
  else
    match storeLookup store category with
    | none => none
    | some kws =>
        if trimChars keyword ∈ kws then some (store, false)
        else some (storeSet store category (kws ++ [trimChars keyword]), true)

/-- Embeds the Add Category handler (src/main.py lines 106-109): a non-empty
name not already present is inserted with an empty keyword list. -/
def add_category (store : CatStore) (name : String) : CatStore :=
  if name ≠ "" ∧ storeLookup store name = none then store ++ [(name, [])] else store

/-- The category stores the app can reach: the initial store of src/main.py
lines 172-175, closed under the Add Category handler and under the
correction loop of lines 130-138, which calls `add_keyword_to_category`
with a category picked from the selectbox (hence an existing key) and the
row's Details text as the keyword. -/
inductive ReachableStore : CatStore → Prop
  | init : ReachableStore [("Uncategorized", [])]
  | addCat (s : CatStore) (name : String) :
      ReachableStore s → ReachableStore (add_category s name)
  | correction (s s' : CatStore) (cat kw : String) (b : Bool) :
      ReachableStore s → (storeLookup s cat).isSome →
      add_keyword_to_category s cat kw = some (s', b) → ReachableStore s'


lemma storeLookup_append (s₁ s₂ : CatStore) (k : String) :
    storeLookup (s₁ ++ s₂) k =
      match storeLookup s₁ k with
      | some v => some v
      | none => storeLookup s₂ k := by
  induction s₁ with
  | nil => rfl
  | cons p rest ih =>
      obtain ⟨pc, pk⟩ := p
      by_cases h : pc = k
      · simp [storeLookup, h]
      · simp [storeLookup, h, ih]

lemma storeLookup_storeSet_isSome (s : CatStore) (c : String) (v : List String) (k : String) :
    (storeLookup (storeSet s c v) k).isSome = (storeLookup s k).isSome := by
  induction s with
  | nil => rfl
  | cons p rest ih =>
      obtain ⟨pc, pk⟩ := p
      by_cases hc : pc = c
      · subst hc
        by_cases hck : pc = k
        · subst hck; simp [storeSet, storeLookup]
        · simp [storeSet, storeLookup, hck]
      · by_cases hck : pc = k
        · subst hck; simp [storeSet, storeLookup, hc]
        · simp [storeSet, storeLookup, hc, hck, ih]

lemma storeLookup_storeSet_self (s : CatStore) (c : String) (v kws : List String)
    (h : storeLookup s c = some kws) : storeLookup (storeSet s c v) c = some v := by
  induction s with
  | nil => exact absurd h (by simp [storeLookup])
  | cons p rest ih =>
      obtain ⟨pc, pk⟩ := p
      by_cases hc : pc = c
      · simp [storeSet, storeLookup, hc]
      · simp only [storeLookup, if_neg hc] at h
        simp [storeSet, storeLookup, hc, ih h]

lemma mem_storeSet (s : CatStore) (c : String) (v : List String)
    (q : String × List String) (hq : q ∈ storeSet s c v) : q ∈ s ∨ q = (c, v) := by
  induction s with
  | nil => exact absurd hq (by simp [storeSet])
  | cons p rest ih =>
      obtain ⟨pc, pk⟩ := p
      by_cases hc : pc = c
      · rw [show storeSet ((pc, pk) :: rest) c v = (pc, v) :: rest from by
          simp [storeSet, hc]] at hq
        rcases List.mem_cons.mp hq with h | h
        · right; rw [h, hc]
        · left; exact List.mem_cons_of_mem _ h
      · rw [show storeSet ((pc, pk) :: rest) c v = (pc, pk) :: storeSet rest c v from by
          simp [storeSet, hc]] at hq
        rcases List.mem_cons.mp hq with h | h
        · left; rw [h]; exact List.mem_cons_self _ _
        · rcases ih h with h' | h'
          · left; exact List.mem_cons_of_mem _ h'
          · right; exact h'

lemma storeLookup_mem (s : CatStore) (c : String) (kws : List String)
    (h : storeLookup s c = some kws) : (c, kws) ∈ s := by
  induction s with
  | nil => exact absurd h (by simp [storeLookup])
  | cons p rest ih =>
      obtain ⟨pc, pk⟩ := p
      by_cases hc : pc = c
      · simp only [storeLookup, if_pos hc] at h
        subst hc
        rw [Option.some.injEq] at h
        subst h
        exact List.mem_cons_self _ _
      · simp only [storeLookup, if_neg hc] at h
        exact List.mem_cons_of_mem _ (ih h)

/-- Dissection of a successful (non-raising) `add_keyword_to_category` call:
either nothing changed and it returned `False`, or the trimmed keyword was
new for an existing category and was appended with result `True`. -/
lemma add_keyword_cases (store : CatStore) (cat kw : String) (s' : CatStore) (b : Bool)
    (h : add_keyword_to_category store cat kw = some (s', b)) :
    (s' = store ∧ b = false) ∨
    (∃ kws, storeLookup store cat = some kws ∧ trimChars kw ≠ "" ∧ trimChars kw ∉ kws ∧
        s' = storeSet store cat (kws ++ [trimChars kw]) ∧ b = true) := by
  by_cases h0 : trimChars kw = ""
  · rw [add_keyword_to_category, if_pos h0, Option.some.injEq] at h
    left
    exact ⟨(congrArg Prod.fst h).symm, (congrArg Prod.snd h).symm⟩
  · cases hlu : storeLookup store cat with
    | none => simp [add_keyword_to_category, if_neg h0, hlu] at h
    | some kws =>
        by_cases hmem : trimChars kw ∈ kws
        · simp only [add_keyword_to_category, if_neg h0, hlu, if_pos hmem,
            Option.some.injEq, Prod.mk.injEq] at h
          left
          exact ⟨h.1.symm, h.2.symm⟩
        · simp only [add_keyword_to_category, if_neg h0, hlu, if_neg hmem,
            Option.some.injEq, Prod.mk.injEq] at h
          right
          exact ⟨kws, rfl, h0, hmem, h.1.symm, h.2.symm⟩

/-- "Uncategorized" is a key of every reachable store: the initial store has
it, Add Category only appends, and add_keyword_to_category only replaces a
value. -/
lemma reachable_uncat (s : CatStore) (h : ReachableStore s) :
    (storeLookup s "Uncategorized").isSome := by
  induction h with
  | init => decide
  | addCat s1 name hs ih =>
      unfold add_category
      by_cases hc : name ≠ "" ∧ storeLookup s1 name = none
      · rw [if_pos hc, storeLookup_append]
        rcases Option.isSome_iff_exists.mp ih with ⟨v, hv⟩
        simp [hv]
      · rw [if_neg hc]; exact ih
  | correction s1 s' cat kw b hs hlk hadd ih =>
      rcases add_keyword_cases _ _ _ _ _ hadd with ⟨rfl, _⟩ | ⟨kws, hlu, hne, hnm, rfl, _⟩
      · exact ih
      · rw [storeLookup_storeSet_isSome]; exact ih

/-- In every reachable store each category's keyword list is duplicate-free:
add_keyword_to_category appends only keywords absent from the target list. -/
lemma reachable_keyword_nodup (s : CatStore) (h : ReachableStore s) :
    ∀ p ∈ s, p.2.Nodup := by
  induction h with
  | init =>
      intro p hp
      rw [List.mem_singleton] at hp
      subst hp
      exact List.nodup_nil
  | addCat s1 name hs ih =>
      intro p hp
      unfold add_category at hp
      by_cases hc : name ≠ "" ∧ storeLookup s1 name = none
      · rw [if_pos hc] at hp
        rcases List.mem_append.mp hp with hmem | hmem
        · exact ih p hmem
        · rw [List.mem_singleton] at hmem; subst hmem; exact List.nodup_nil
      · rw [if_neg hc] at hp; exact ih p hp
  | correction s1 s' cat kw b hs hlk hadd ih =>
      intro p hp
      rcases add_keyword_cases _ _ _ _ _ hadd with ⟨rfl, _⟩ | ⟨kws, hlu, hne, hnm, rfl, _⟩
      · exact ih p hp
      · rcases mem_storeSet _ _ _ _ hp with hmem | hmem
        · exact ih p hmem
        · subst hmem
          have hk : kws.Nodup := ih (cat, kws) (storeLookup_mem _ _ _ hlu)
          show (kws ++ [trimChars kw]).Nodup
          rw [List.nodup_append]
          refine ⟨hk, List.nodup_singleton _, ?_⟩
          intro a ha hb
          rw [List.mem_singleton] at hb
          subst hb
          exact hnm ha

/-- C4 counterexample: the claim that no operation ever assigns a keyword to
"Uncategorized" is false: a user correction that re-assigns a row (here with
Details "x") back to "Uncategorized" reaches a store whose "Uncategorized"
keyword list is no longer empty. -/
theorem uncategorized_receives_keyword :
    ReachableStore [("Uncategorized", ["x"])] ∧
    storeLookup [("Uncategorized", ["x"])] "Uncategorized" ≠ some [] := by
  constructor
  · exact ReachableStore.correction [("Uncategorized", [])] [("Uncategorized", ["x"])]
      "Uncategorized" "x" true ReachableStore.init (by decide) (by decide)
  · decide

/-- C4 (amended): in every reachable store "Uncategorized" exists, and every
transaction whose normalized Details matches no non-"Uncategorized",
non-empty rule is labelled "Uncategorized" by the categorizer (keywords that
a correction may have attached to "Uncategorized" itself are skipped during
matching); but the store may reach states where "Uncategorized" holds
keywords, see the counterexample. -/
theorem uncategorized_exists_and_default (s : CatStore) (hs : ReachableStore s)
    (df : List Txn) (t : Txn) (ht : t ∈ categorize_transactions df s)
    (hnm : ∀ p ∈ s, p.1 ≠ "Uncategorized" → p.2 ≠ [] → normStr t.Details ∉ p.2.map normStr) :
    (storeLookup s "Uncategorized").isSome ∧ t.Category = "Uncategorized" := by
  refine ⟨reachable_uncat s hs, ?_⟩
  rw [categorize_eq_map] at ht
  rcases List.mem_map.mp ht with ⟨t0, ht0, rfl⟩
  show (lastMatchingCategory s t0.Details).getD "Uncategorized" = "Uncategorized"
  have hfind : s.reverse.find? (ruleMatches t0.Details) = none := by
    apply List.find?_eq_none.mpr
    intro p hp
    simp only [ruleMatches, decide_eq_true_eq]
    rintro ⟨h1, h2, h3⟩
    exact hnm p (List.mem_reverse.mp hp) h1 h2 h3
  simp [lastMatchingCategory, hfind]

/-- Witness for the C4 theorem at the initial store and a one-row set. -/
theorem uncategorized_exists_and_default_witness :
    (storeLookup [("Uncategorized", [])] "Uncategorized").isSome ∧
    (Txn.mk ⟨2024, 1, 5⟩ "zeta" 5 none none "Uncategorized").Category = "Uncategorized" :=
  uncategorized_exists_and_default [("Uncategorized", [])] ReachableStore.init
    [Txn.mk ⟨2024, 1, 5⟩ "zeta" 5 none none "Uncategorized"]
    (Txn.mk ⟨2024, 1, 5⟩ "zeta" 5 none none "Uncategorized")
    (by decide) (by decide)

/-- C8 counterexample: the same keyword string "x" (identical even after
normalization) becomes registered in two different categories "A" and "B"
through two user corrections, so keywords are not registered against exactly
one category. -/
theorem keyword_registered_in_two_categories :
    ReachableStore [("Uncategorized", []), ("A", ["x"]), ("B", ["x"])] ∧
    storeLookup [("Uncategorized", []), ("A", ["x"]), ("B", ["x"])] "A" = some ["x"] ∧
    storeLookup [("Uncategorized", []), ("A", ["x"]), ("B", ["x"])] "B" = some ["x"] ∧
    "A" ≠ "B" := by
  have h0 : ReachableStore [("Uncategorized", [])] := ReachableStore.init
  have h1 : ReachableStore [("Uncategorized", []), ("A", [])] := by
    have h := ReachableStore.addCat _ "A" h0
    rwa [show add_category [("Uncategorized", [])] "A"
        = [("Uncategorized", []), ("A", [])] from by decide] at h
  have h2 : ReachableStore [("Uncategorized", []), ("A", []), ("B", [])] := by
    have h := ReachableStore.addCat _ "B" h1
    rwa [show add_category [("Uncategorized", []), ("A", [])] "B"
        = [("Uncategorized", []), ("A", []), ("B", [])] from by decide] at h
  have h3 : ReachableStore [("Uncategorized", []), ("A", ["x"]), ("B", [])] :=
    ReachableStore.correction _ _ "A" "x" true h2 (by decide) (by decide)
  have h4 : ReachableStore [("Uncategorized", []), ("A", ["x"]), ("B", ["x"])] :=
    ReachableStore.correction _ _ "B" "x" true h3 (by decide) (by decide)
  exact ⟨h4, by decide, by decide, by decide⟩

/-- C8 (amended): add_keyword_to_category only prevents duplicates within a
single category, so within each reachable store every category's keyword
list is duplicate-free — but the same keyword may be registered in several
categories (see the counterexample); cross-category collisions are resolved
at categorization time by the last-category-wins rule. -/
theorem keywords_nodup_within_category (s : CatStore) (hs : ReachableStore s) :
    ∀ p ∈ s, p.2.Nodup :=
  reachable_keyword_nodup s hs

/-- Witness for the C8 theorem at a reachable two-category store. -/
theorem keywords_nodup_within_category_witness :
    (("A", ["x"]) : String × List String).2.Nodup := by
  have h1 : ReachableStore [("Uncategorized", []), ("A", [])] := by
    have h := ReachableStore.addCat _ "A" ReachableStore.init
    rwa [show add_category [("Uncategorized", [])] "A"
        = [("Uncategorized", []), ("A", [])] from by decide] at h
  have h2 : ReachableStore [("Uncategorized", []), ("A", ["x"])] :=
    ReachableStore.correction _ _ "A" "x" true h1 (by decide) (by decide)
  exact keywords_nodup_within_category _ h2 ("A", ["x"]) (by decide)

/-- C5 counterexample: with a non-empty keyword and a category absent from
the store, `add_keyword_to_category` raises KeyError on the dict access
(modelled as `none`) instead of returning false and leaving the store
unchanged. -/
theorem add_keyword_missing_category_errors :
    add_keyword_to_category [("Uncategorized", [])] "Ghost" "netflix" = none ∧
    (none : Option (CatStore × Bool)) ≠ some ([("Uncategorized", [])], false) := by
  exact ⟨by decide, by decide⟩

/-- C5 (amended): the keyword is trimmed; the call returns false and leaves
the store unchanged when the trimmed keyword is empty or already present
(case-sensitively, as stored) in the existing category's list; when the
trimmed keyword is non-empty and the category is absent the call raises
KeyError (`none`) rather than returning false; otherwise the trimmed
keyword is appended, the store persisted, and true returned — after which
a repeated call with any whitespace variant of the same keyword returns
false and leaves the keyword list unchanged. -/
theorem add_keyword_amended_spec (store : CatStore) (category keyword : String) :
    (trimChars keyword = "" →
        add_keyword_to_category store category keyword = some (store, false)) ∧
    (trimChars keyword ≠ "" → storeLookup store category = none →
        add_keyword_to_category store category keyword = none) ∧
    (∀ kws, storeLookup store category = some kws → trimChars keyword ∈ kws →
        add_keyword_to_category store category keyword = some (store, false)) ∧
    (∀ kws, storeLookup store category = some kws →
        trimChars keyword ≠ "" → trimChars keyword ∉ kws →
        add_keyword_to_category store category keyword
            = some (storeSet store category (kws ++ [trimChars keyword]), true) ∧
        ∀ kw2, trimChars kw2 = trimChars keyword →
          add_keyword_to_category (storeSet store category (kws ++ [trimChars keyword]))
              category kw2
            = some (storeSet store category (kws ++ [trimChars keyword]), false)) := by
  refine ⟨?_, ?_, ?_, ?_⟩
  · intro h
    rw [add_keyword_to_category, if_pos h]
  · intro h1 h2
    simp [add_keyword_to_category, if_neg h1, h2]
  · intro kws hlu hmem
    by_cases h0 : trimChars keyword = ""
    · rw [add_keyword_to_category, if_pos h0]
    · simp [add_keyword_to_category, if_neg h0, hlu, hmem]
  · intro kws hlu hne hnm
    constructor
    · simp [add_keyword_to_category, if_neg hne, hlu, hnm]
    · intro kw2 h2
      have hlu' : storeLookup (storeSet store category (kws ++ [trimChars keyword])) category
          = some (kws ++ [trimChars keyword]) :=
        storeLookup_storeSet_self store category _ kws hlu
      have hne2 : trimChars kw2 ≠ "" := by rw [h2]; exact hne
      have hmem2 : trimChars kw2 ∈ kws ++ [trimChars keyword] := by
        rw [h2]; exact List.mem_append_right _ (List.mem_singleton_self _)
      simp [add_keyword_to_category, if_neg hne2, hlu', hmem2]

/-- Witness for the C5 theorem: the addKeyword("Groceries", "  Carrefour  ")
twice scenario — first call appends the trimmed keyword and returns true,
second call returns false and leaves the store (hence the list length)
unchanged. -/
theorem add_keyword_amended_spec_witness :
    add_keyword_to_category [("Uncategorized", []), ("Groceries", [])]
        "Groceries" "  Carrefour  "
      = some ([("Uncategorized", []), ("Groceries", ["Carrefour"])], true) ∧
    add_keyword_to_category [("Uncategorized", []), ("Groceries", ["Carrefour"])]
        "Groceries" "  Carrefour  "
      = some ([("Uncategorized", []), ("Groceries", ["Carrefour"])], false) := by
  have h := (add_keyword_amended_spec [("Uncategorized", []), ("Groceries", [])]
      "Groceries" "  Carrefour  ").2.2.2 [] (by decide) (by decide) (by decide)
  have hset : storeSet [("Uncategorized", []), ("Groceries", [])] "Groceries"
      ([] ++ [trimChars "  Carrefour  "])
      = [("Uncategorized", []), ("Groceries", ["Carrefour"])] := by decide
  constructor
  · rw [h.1, hset]
  · have h2 := h.2 "  Carrefour  " rfl
    rw [hset] at h2
    exact h2

lemma parseRows_eq_none (di : Nat) (dei : Option Nat) (ai : Nat) (dci si : Option Nat)
    (rows : List (List String)) (r : List String) (hr : r ∈ rows)
    (hnone : parseRow di dei ai dci si r = none) :
    parseRows di dei ai dci si rows = none := by
  induction rows with
  | nil => exact absurd hr (List.not_mem_nil r)
  | cons a l ih =>
      rcases List.mem_cons.mp hr with heq | hmem
      · subst heq
        simp [parseRows, hnone]
      · cases hpa : parseRow di dei ai dci si a <;> simp [parseRows, hpa, ih hmem]

/-- The Amount column exists and this row's Amount cell is present but not a
valid number after comma removal. -/
def amountCellBad (raw : RawTable) (r : List String) : Bool :=
  match colId raw "Amount" with
  | some i =>
      match r[i]? with
      | some a => (parseAmount a).isNone
      | none => false
  | none => false

/-- The Date column exists and this row's Date cell is present but does not
match the fixed "DD Mon YYYY" format. -/
def dateCellBad (raw : RawTable) (r : List String) : Bool :=
  match colId raw "Date" with
  | some i =>
      match r[i]? with
      | some d => (parseDate d).isNone
      | none => false
  | none => false

/-- C7 (amended): when the Date or Amount column is missing, or the Details
column is missing while some non-"Uncategorized" category has keywords (only
then does the category loop read Details), or any row's Amount cell fails
numeric conversion after comma stripping, or any row's Date cell fails the
fixed-format parse, the entire input is rejected: `load_transactions` yields
no transaction set at all, no incoming transaction enters the ledger, the
persisted snapshot is untouched, and the in-memory ledger keeps exactly its
own rows — merely re-deduplicated in place, because line 29's `pd.concat`
drops the `None` incoming and line 35 reassigns the frame before the
exception at line 37.  (A missing Debit/Credit or Status column is NOT
rejected — see the counterexample — and a missing Details column loads when
no category has keywords, see `details_column_skipped_when_no_rules`.) -/
theorem parse_reject_all_or_nothing (s : AppState) (raw : RawTable) (store : CatStore)
    (h : colId raw "Date" = none ∨ colId raw "Amount" = none ∨
        (colId raw "Details" = none ∧ storeHasActiveRule store = true) ∨
        ∃ r ∈ raw.rows, amountCellBad raw r = true ∨ dateCellBad raw r = true) :
    load_transactions raw store = none ∧
    (save_csv_step s raw store).2 = false ∧
    (save_csv_step s raw store).1.persisted = s.persisted ∧
    (save_csv_step s raw store).1.dataframe = s.dataframe.map dedupKeepLast := by
  have hload : load_transactions raw store = none := by
    cases hd : colId raw "Date" with
    | none => simp [load_transactions, hd]
    | some di =>
        cases ha : colId raw "Amount" with
        | none => simp [load_transactions, hd, ha]
        | some ai =>
            by_cases hdet : colId raw "Details" = none ∧ storeHasActiveRule store = true
            · simp [load_transactions, hd, ha, hdet]
            · rcases h with h | h | h | h
              · rw [hd] at h; exact Option.noConfusion h
              · rw [ha] at h; exact Option.noConfusion h
              · exact absurd h hdet
              · rcases h with ⟨r, hr, hbad⟩
                have hrow : parseRow di (colId raw "Details") ai
                    (colId raw "Debit/Credit") (colId raw "Status") r = none := by
                  rcases hbad with hbad | hbad
                  · simp only [amountCellBad, ha] at hbad
                    cases hc : r[ai]? with
                    | none =>
                        simp only [hc] at hbad
                        exact Bool.noConfusion hbad
                    | some a =>
                        simp only [hc] at hbad
                        have hpa : parseAmount a = none :=
                          Option.isNone_iff_eq_none.mp hbad
                        cases h1 : r[di]? <;> simp [parseRow, h1, hc, hpa]
                  · simp only [dateCellBad, hd] at hbad
                    cases hc : r[di]? with
                    | none =>
                        simp only [hc] at hbad
                        exact Bool.noConfusion hbad
                    | some ds =>
                        simp only [hc] at hbad
                        have hpd : parseDate ds = none :=
                          Option.isNone_iff_eq_none.mp hbad
                        cases h3 : r[ai]? <;> simp [parseRow, hc, h3, hpd]
                have hrows := parseRows_eq_none di (colId raw "Details") ai
                    (colId raw "Debit/Credit") (colId raw "Status") raw.rows r hr hrow
                simp [load_transactions, hd, ha, hdet, hrows]
  refine ⟨hload, ?_, ?_, ?_⟩ <;>
    cases hdf : s.dataframe <;> simp [save_csv_step, hload, hdf]

/-- Witness for the C7 theorem: one row whose Amount cell "abc" fails
conversion; with a one-transaction ledger present, the import is rejected,
nothing is persisted, and the in-memory ledger keeps only its own (already
key-distinct) row. -/
theorem parse_reject_all_or_nothing_witness :
    load_transactions
        (RawTable.mk ["Date", "Details", "Amount", "Debit/Credit", "Status"]
          [["05 Jan 2024", "shop", "abc", "Debit", "ok"]])
        [("Uncategorized", [])] = none ∧
    (save_csv_step
        (AppState.mk
          (some [Txn.mk ⟨2024, 1, 5⟩ "alpha" 1000 (some "Debit") (some "posted") "Uncategorized"])
          (some [Txn.mk ⟨2024, 1, 5⟩ "alpha" 1000 (some "Debit") (some "posted") "Uncategorized"]))
        (RawTable.mk ["Date", "Details", "Amount", "Debit/Credit", "Status"]
          [["05 Jan 2024", "shop", "abc", "Debit", "ok"]])
        [("Uncategorized", [])]).2 = false ∧
    (save_csv_step
        (AppState.mk
          (some [Txn.mk ⟨2024, 1, 5⟩ "alpha" 1000 (some "Debit") (some "posted") "Uncategorized"])
          (some [Txn.mk ⟨2024, 1, 5⟩ "alpha" 1000 (some "Debit") (some "posted") "Uncategorized"]))
        (RawTable.mk ["Date", "Details", "Amount", "Debit/Credit", "Status"]
          [["05 Jan 2024", "shop", "abc", "Debit", "ok"]])
        [("Uncategorized", [])]).1.persisted
      = (AppState.mk
          (some [Txn.mk ⟨2024, 1, 5⟩ "alpha" 1000 (some "Debit") (some "posted") "Uncategorized"])
          (some [Txn.mk ⟨2024, 1, 5⟩ "alpha" 1000 (some "Debit") (some "posted") "Uncategorized"])).persisted ∧
    (save_csv_step
        (AppState.mk
          (some [Txn.mk ⟨2024, 1, 5⟩ "alpha" 1000 (some "Debit") (some "posted") "Uncategorized"])
          (some [Txn.mk ⟨2024, 1, 5⟩ "alpha" 1000 (some "Debit") (some "posted") "Uncategorized"]))
        (RawTable.mk ["Date", "Details", "Amount", "Debit/Credit", "Status"]
          [["05 Jan 2024", "shop", "abc", "Debit", "ok"]])
        [("Uncategorized", [])]).1.dataframe
      = (AppState.mk
          (some [Txn.mk ⟨2024, 1, 5⟩ "alpha" 1000 (some "Debit") (some "posted") "Uncategorized"])
          (some [Txn.mk ⟨2024, 1, 5⟩ "alpha" 1000 (some "Debit") (some "posted") "Uncategorized"])).dataframe.map
          dedupKeepLast :=
  parse_reject_all_or_nothing
    (AppState.mk
      (some [Txn.mk ⟨2024, 1, 5⟩ "alpha" 1000 (some "Debit") (some "posted") "Uncategorized"])
      (some [Txn.mk ⟨2024, 1, 5⟩ "alpha" 1000 (some "Debit") (some "posted") "Uncategorized"]))
    (RawTable.mk ["Date", "Details", "Amount", "Debit/Credit", "Status"]
      [["05 Jan 2024", "shop", "abc", "Debit", "ok"]])
    [("Uncategorized", [])] (by decide)

/-- C7 counterexample: a table missing the required Status column is not
rejected — `load_transactions` never touches that column, so the batch
loads with the Status field absent, contradicting the claim that a missing
required column rejects the entire input. -/
theorem missing_status_column_not_rejected :
    load_transactions
        (RawTable.mk ["Date", "Details", "Amount", "Debit/Credit"]
          [["05 Jan 2024", "shop", "1,000", "Debit"]])
        [("Uncategorized", [])]
      = some [Txn.mk ⟨2024, 1, 5⟩ "shop" 1000 (some "Debit") none "Uncategorized"] := by
  decide

/-- With the initial store no category has keywords, so src/main.py's
category loop never reads `df["Details"]`: a table without a Details column
loads (the field is recorded as the empty-string placeholder) and save_csv
then persists the batch.  The Details requirement of parsing is conditional
on the store's rules. -/
lemma details_column_skipped_when_no_rules :
    storeHasActiveRule [("Uncategorized", [])] = false ∧
    load_transactions
        (RawTable.mk ["Date", "Amount", "Debit/Credit", "Status"]
          [["05 Jan 2024", "1,000", "Debit", "posted"]])
        [("Uncategorized", [])]
      = some [Txn.mk ⟨2024, 1, 5⟩ "" 1000 (some "Debit") (some "posted") "Uncategorized"] ∧
    (save_csv_step (AppState.mk none none)
        (RawTable.mk ["Date", "Amount", "Debit/Credit", "Status"]
          [["05 Jan 2024", "1,000", "Debit", "posted"]])
        [("Uncategorized", [])]).1.persisted
      = some [Txn.mk ⟨2024, 1, 5⟩ "" 1000 (some "Debit") (some "posted") "Uncategorized"] := by
  decide

/-- C6 counterexample: importing a one-row batch while the session ledger is
absent (`st.session_state.dataframe is None`) leaves the in-memory ledger
`None` — the merge branch of save_csv is skipped entirely — so the in-memory
result is not the incoming batch. -/
theorem merge_absent_ledger_not_incoming :
    load_transactions
        (RawTable.mk ["Date", "Details", "Amount", "Debit/Credit", "Status"]
          [["05 Jan 2024", "alpha", "1,000", "Debit", "posted"]])
        [("Uncategorized", [])]
      = some [Txn.mk ⟨2024, 1, 5⟩ "alpha" 1000 (some "Debit") (some "posted") "Uncategorized"] ∧
    (save_csv_step (AppState.mk none none)
        (RawTable.mk ["Date", "Details", "Amount", "Debit/Credit", "Status"]
          [["05 Jan 2024", "alpha", "1,000", "Debit", "posted"]])
        [("Uncategorized", [])]).1.dataframe = none ∧
    (none : Option (List Txn))
      ≠ some [Txn.mk ⟨2024, 1, 5⟩ "alpha" 1000 (some "Debit") (some "posted") "Uncategorized"] := by
  exact ⟨by decide, by decide, by decide⟩

/-- C6 (amended): when the existing in-memory ledger is a present-but-empty
dataframe, the merge result is the incoming batch deduplicated by the
identity tuple; when the ledger is absent (`None`), save_csv performs no
in-memory merge at all — the in-memory ledger stays `None` — and only writes
the incoming batch to the parquet, so the ledger seen after the next rerun's
reload equals the incoming batch. -/
theorem merge_empty_or_absent_amended (incoming : List Txn) (p : Option (List Txn)) :
    save_csv_core (AppState.mk (some []) p) incoming
        = AppState.mk (some (dedupKeepLast incoming)) (some incoming) ∧
    save_csv_core (AppState.mk none p) incoming = AppState.mk none (some incoming) ∧
    (reload_state (save_csv_core (AppState.mk none p) incoming)).dataframe = some incoming :=
  ⟨rfl, rfl, rfl⟩

/-- C3 (code bug): after importing a batch into a non-empty existing ledger,
save_csv computes the merged deduplicated frame into the session dataframe
but writes the *incoming* batch to the parquet snapshot (src/main.py
line 37: `incoming_df.to_parquet`), so the persisted snapshot is not the
merged ledger, and the next rerun's reload (lines 184-185) replaces the
in-memory ledger with the incoming batch alone, losing the pre-existing
transaction. -/
theorem persisted_snapshot_drops_existing :
    save_csv_step
        (AppState.mk
          (some [Txn.mk ⟨2024, 1, 5⟩ "alpha" 1000 (some "Debit") (some "posted") "Uncategorized"])
          (some [Txn.mk ⟨2024, 1, 5⟩ "alpha" 1000 (some "Debit") (some "posted") "Uncategorized"]))
        (RawTable.mk ["Date", "Details", "Amount", "Debit/Credit", "Status"]
          [["06 Jan 2024", "beta", "2,000", "Debit", "posted"]])
        [("Uncategorized", [])]
      = (AppState.mk
          (some [Txn.mk ⟨2024, 1, 5⟩ "alpha" 1000 (some "Debit") (some "posted") "Uncategorized",
                 Txn.mk ⟨2024, 1, 6⟩ "beta" 2000 (some "Debit") (some "posted") "Uncategorized"])
          (some [Txn.mk ⟨2024, 1, 6⟩ "beta" 2000 (some "Debit") (some "posted") "Uncategorized"]),
         true) ∧
    (reload_state
        (save_csv_step
          (AppState.mk
            (some [Txn.mk ⟨2024, 1, 5⟩ "alpha" 1000 (some "Debit") (some "posted") "Uncategorized"])
            (some [Txn.mk ⟨2024, 1, 5⟩ "alpha" 1000 (some "Debit") (some "posted") "Uncategorized"]))
          (RawTable.mk ["Date", "Details", "Amount", "Debit/Credit", "Status"]
            [["06 Jan 2024", "beta", "2,000", "Debit", "posted"]])
          [("Uncategorized", [])]).1).dataframe
      = some [Txn.mk ⟨2024, 1, 6⟩ "beta" 2000 (some "Debit") (some "posted") "Uncategorized"] ∧
    some [Txn.mk ⟨2024, 1, 6⟩ "beta" 2000 (some "Debit") (some "posted") "Uncategorized"]
      ≠ some [Txn.mk ⟨2024, 1, 5⟩ "alpha" 1000 (some "Debit") (some "posted") "Uncategorized",
              Txn.mk ⟨2024, 1, 6⟩ "beta" 2000 (some "Debit") (some "posted") "Uncategorized"] := by
  exact ⟨by decide, by decide, by decide⟩

instance : DecidableRel (fun a b : String × ℚ => b.2 ≤ a.2) :=
  fun a b => inferInstanceAs (Decidable (b.2 ≤ a.2))

instance : IsTotal (String × ℚ) (fun a b => b.2 ≤ a.2) :=
  ⟨fun a b => le_total b.2 a.2⟩

instance : IsTrans (String × ℚ) (fun a b => b.2 ≤ a.2) :=
  ⟨fun _ _ _ hab hbc => le_trans hbc hab⟩

/-- Embeds the per-category totals of src/main.py lines 141-146: group the
rows by Category, sum Amount per category, and sort the (category, sum)
pairs descending by the summed Amount. -/
def categoryTotals (df : List Txn) : List (String × ℚ) :=
  List.insertionSort (fun a b => b.2 ≤ a.2)
    (((df.map (fun t => t.Category)).dedup).map
      (fun c => (c, ((df.filter (fun t => t.Category == c)).map (fun t => t.Amount)).sum)))

/-- The `getCategoryTotals(direction)` operation: the direction subset of
the ledger (src/main.py lines 92-97) grouped and sorted as in lines
141-146. -/
def getCategoryTotals (ledger : List Txn) (direction : String) : List (String × ℚ) :=
  categoryTotals (ledger.filter (fun t => t.DebitCredit == some direction))

/-- C9: for every ledger and direction, getCategoryTotals returns pairs
sorted in descending order of the summed Amount, whose categories are
exactly the distinct Category values of the direction's subset (each once),
and each pair's value is the sum of the Amount of the subset's rows in that
category. -/
theorem category_totals_sorted_desc (ledger : List Txn) (direction : String) :
    (getCategoryTotals ledger direction).Pairwise (fun a b => b.2 ≤ a.2) ∧
    ((getCategoryTotals ledger direction).map Prod.fst).Perm
      (((ledger.filter (fun t => t.DebitCredit == some direction)).map
          (fun t => t.Category)).dedup) ∧
    ∀ q ∈ getCategoryTotals ledger direction,
      q.2 = (((ledger.filter (fun t => t.DebitCredit == some direction)).filter
          (fun t => t.Category == q.1)).map (fun t => t.Amount)).sum := by
  refine ⟨?_, ?_, ?_⟩
  · exact List.sorted_insertionSort _ _
  · have hp := (List.perm_insertionSort (fun a b : String × ℚ => b.2 ≤ a.2)
        ((((ledger.filter (fun t => t.DebitCredit == some direction)).map
            (fun t => t.Category)).dedup).map
          (fun c => (c, (((ledger.filter (fun t => t.DebitCredit == some direction)).filter
              (fun t => t.Category == c)).map (fun t => t.Amount)).sum)))).map Prod.fst
    refine hp.trans ?_
    rw [List.map_map]
    have hid : (Prod.fst ∘ fun c : String =>
        (c, (((ledger.filter (fun t => t.DebitCredit == some direction)).filter
            (fun t => t.Category == c)).map (fun t => t.Amount)).sum)) = id :=
      funext fun c => rfl
    rw [hid, List.map_id]
  · intro q hq
    have hq' := (List.perm_insertionSort (fun a b : String × ℚ => b.2 ≤ a.2) _).subset hq
    rcases List.mem_map.mp hq' with ⟨c, hc, heq⟩
    subst heq
    rfl
